import Mathlib

/-!
Shallow embedding of the chess rules engine of `src/chess_game.py`
(class `ChessGame`): the board representation, move generation, check
detection and move application, together with theorems settling the
specification claims.

Conventions of the embedding:
* The Python 8×8 list-of-lists board becomes a total function
  `Int → Int → Option Piece`.  On every path the claims exercise, the
  Python code guards its board reads with `0 <= x < 8` bounds checks, so
  the function representation agrees with the list one there.
* Mutation of `self.board` and of `Piece` objects becomes explicit state
  passing.  Aliasing of a `Piece` object from a board cell is resolved by
  storing piece values in cells: the move generators never read the
  `.row`/`.col` fields of a target cell, only its `.color`, so the only
  observable coordinates are those of the piece value each function is
  called with.
* Python integers are `Int` (arithmetic such as `piece.row - 1` can go
  negative before the bounds check); Python floor division `//` is
  `Int.fdiv`.
* `make_move` returns `Option ChessGame`: `none` models the one place the
  Python function can raise (dereferencing an empty rook cell during the
  castling branch); every other path is total.
-/

inductive PieceType where
  | PAWN
  | ROOK
  | KNIGHT
  | BISHOP
  | QUEEN
  | KING
deriving DecidableEq

inductive PieceColor where
  | WHITE
  | BLACK
deriving DecidableEq

/-- A piece value: `Piece.__init__` fields `type`, `color`, `row`, `col`,
`has_moved` (the latter initialized to `False`). -/
structure Piece where
  type : PieceType
  color : PieceColor
  row : Int
  col : Int
  has_moved : Bool
deriving DecidableEq

/-- The board: Python's `self.board`, an 8×8 grid of `Piece | None`. -/
abbrev Board := Int → Int → Option Piece

/-- Writing one board cell (`self.board[r][c] = v`). -/
def setB (b : Board) (r c : Int) (v : Option Piece) : Board :=
  fun r' c' => if r' = r ∧ c' = c then v else b r' c'

/-- One entry of `self.move_history` (the dict appended in `make_move`).
`from` is a Lean keyword, so the field is named `fromSq`. -/
structure HistEntry where
  piece : Piece
  fromSq : Int × Int
  toSq : Int × Int
  captured : Option Piece
deriving DecidableEq

/-- The engine-relevant state of the Python `ChessGame` object: the board,
the side to move, the six castling-tracking flags, the en-passant target
and the move history.  (Rendering and menu fields are out of scope.) -/
structure ChessGame where
  board : Board
  turn : PieceColor
  white_king_moved : Bool
  black_king_moved : Bool
  white_rook_a_moved : Bool
  white_rook_h_moved : Bool
  black_rook_a_moved : Bool
  black_rook_h_moved : Bool
  en_passant_target : Option (Int × Int)
  move_history : List HistEntry

/-- All 64 squares in row-major order, the iteration order of the Python
nested `for row in range(8): for col in range(8)` loops. -/
def allSquares : List (Int × Int) :=
  (List.range 8).flatMap fun r => (List.range 8).map fun c => ((r : Int), (c : Int))

/-- `create_initial_board`: pawns on rows 1 and 6, the back rows on rows 0
(black) and 7 (white). -/
def back_row : List PieceType :=
  [PieceType.ROOK, PieceType.KNIGHT, PieceType.BISHOP, PieceType.QUEEN,
   PieceType.KING, PieceType.BISHOP, PieceType.KNIGHT, PieceType.ROOK]

def create_initial_board : Board := fun r c =>
  if 0 ≤ c ∧ c < 8 then
    if r = 1 then some ⟨PieceType.PAWN, PieceColor.BLACK, 1, c, false⟩
    else if r = 6 then some ⟨PieceType.PAWN, PieceColor.WHITE, 6, c, false⟩
    else if r = 0 then (back_row.get? c.toNat).map fun t => ⟨t, PieceColor.BLACK, 0, c, false⟩
    else if r = 7 then (back_row.get? c.toNat).map fun t => ⟨t, PieceColor.WHITE, 7, c, false⟩
    else none
  else none

/-- The engine fields as initialized by `ChessGame.__init__`. -/
def initial_game : ChessGame where
  board := create_initial_board
  turn := PieceColor.WHITE
  white_king_moved := false
  black_king_moved := false
  white_rook_a_moved := false
  white_rook_h_moved := false
  black_rook_a_moved := false
  black_rook_h_moved := false
  en_passant_target := none
  move_history := []

/-- `direction = -1 if piece.color == PieceColor.WHITE else 1` in
`get_pawn_moves` (white moves up, black moves down). -/
def pawn_direction (piece : Piece) : Int :=
  if piece.color = PieceColor.WHITE then -1 else 1

/-- The forward-move part of `get_pawn_moves`: one square ahead onto an
empty cell, and the double advance from the starting row if that cell is
also empty. -/
def pawn_forward_moves (g : ChessGame) (piece : Piece) : List (Int × Int) :=
  let direction := pawn_direction piece
  let new_row := piece.row + direction
  if 0 ≤ new_row ∧ new_row < 8 ∧ g.board new_row piece.col = none then
    (new_row, piece.col) ::
      (if (piece.color = PieceColor.WHITE ∧ piece.row = 6) ∨
          (piece.color = PieceColor.BLACK ∧ piece.row = 1) then
        let two_rows_ahead := piece.row + 2 * direction
        if g.board two_rows_ahead piece.col = none then
          [(two_rows_ahead, piece.col)]
        else []
      else [])
  else []

/-- The capture part of `get_pawn_moves`: the loop over
`[piece.col - 1, piece.col + 1]`. -/
def pawn_capture_moves (g : ChessGame) (piece : Piece) : List (Int × Int) :=
  let direction := pawn_direction piece
  [piece.col - 1, piece.col + 1].filterMap fun col =>
    if 0 ≤ col ∧ col < 8 then
      let new_row := piece.row + direction
      if 0 ≤ new_row ∧ new_row < 8 then
        match g.board new_row col with
        | some target => if target.color ≠ piece.color then some (new_row, col) else none
        | none => none
      else none
    else none

/-- The en-passant part of `get_pawn_moves`: guarded by
`piece.row == ep_row and abs(piece.col - ep_col) == 1` and by
`capture_row == ep_row - direction`. -/
def pawn_ep_moves (g : ChessGame) (piece : Piece) : List (Int × Int) :=
  let direction := pawn_direction piece
  match g.en_passant_target with
  | some ep =>
    if piece.row = ep.1 ∧ (piece.col - ep.2).natAbs = 1 then
      let capture_row := piece.row + direction
      if capture_row = ep.1 - direction then [(capture_row, ep.2)] else []
    else []
  | none => []

/-- `get_pawn_moves`: the list `moves` is built by appending the forward
moves, then the captures, then the en-passant move. -/
def get_pawn_moves (g : ChessGame) (piece : Piece) : List (Int × Int) :=
  pawn_forward_moves g piece ++ pawn_capture_moves g piece ++ pawn_ep_moves g piece

/-- One sliding ray: the Python `for i in range(1, 8)` loop of
`get_rook_moves`/`get_bishop_moves` with its `break`s, started at `i = 1`
with fuel `7`.  A ray stops at the board edge or at the first occupied
square, which is included only when it holds an opposing piece. -/
def ray_steps (g : ChessGame) (piece : Piece) (d : Int × Int) :
    Nat → Int → List (Int × Int)
  | 0, _ => []
  | fuel + 1, i =>
    let new_row := piece.row + i * d.1
    let new_col := piece.col + i * d.2
    if 0 ≤ new_row ∧ new_row < 8 ∧ 0 ≤ new_col ∧ new_col < 8 then
      match g.board new_row new_col with
      | none => (new_row, new_col) :: ray_steps g piece d fuel (i + 1)
      | some target => if target.color ≠ piece.color then [(new_row, new_col)] else []
    else []

/-- `get_rook_moves`: rays in the four orthogonal directions. -/
def get_rook_moves (g : ChessGame) (piece : Piece) : List (Int × Int) :=
  [((0 : Int), (1 : Int)), (0, -1), (1, 0), (-1, 0)].flatMap fun d =>
    ray_steps g piece d 7 1

/-- `get_bishop_moves`: rays in the four diagonal directions. -/
def get_bishop_moves (g : ChessGame) (piece : Piece) : List (Int × Int) :=
  [((1 : Int), (1 : Int)), (1, -1), (-1, 1), (-1, -1)].flatMap fun d =>
    ray_steps g piece d 7 1

/-- `get_queen_moves`: rook moves followed by bishop moves. -/
def get_queen_moves (g : ChessGame) (piece : Piece) : List (Int × Int) :=
  get_rook_moves g piece ++ get_bishop_moves g piece

def knight_offsets : List (Int × Int) :=
  [(-2, -1), (-2, 1), (-1, -2), (-1, 2), (1, -2), (1, 2), (2, -1), (2, 1)]

/-- `get_knight_moves`: the eight fixed offsets, kept when on the board
and not occupied by a piece of the same color. -/
def get_knight_moves (g : ChessGame) (piece : Piece) : List (Int × Int) :=
  knight_offsets.filterMap fun d =>
    let new_row := piece.row + d.1
    let new_col := piece.col + d.2
    if 0 ≤ new_row ∧ new_row < 8 ∧ 0 ≤ new_col ∧ new_col < 8 then
      match g.board new_row new_col with
      | none => some (new_row, new_col)
      | some target => if target.color ≠ piece.color then some (new_row, new_col) else none
    else none

def king_offsets : List (Int × Int) :=
  [(-1, -1), (-1, 0), (-1, 1), (0, -1), (0, 1), (1, -1), (1, 0), (1, 1)]

/-- The first loop of `get_king_moves`: the eight adjacent offsets, kept
when on the board and not occupied by a piece of the same color. -/
def king_adjacent_moves (g : ChessGame) (piece : Piece) : List (Int × Int) :=
  king_offsets.filterMap fun d =>
    let new_row := piece.row + d.1
    let new_col := piece.col + d.2
    if 0 ≤ new_row ∧ new_row < 8 ∧ 0 ≤ new_col ∧ new_col < 8 then
      match g.board new_row new_col with
      | none => some (new_row, new_col)
      | some target => if target.color ≠ piece.color then some (new_row, new_col) else none
    else none

/-- The Python test `self.board[r][c] and self.board[r][c].type ==
PieceType.ROOK and self.board[r][c].color == color`. -/
def cell_is_rook_of (cell : Option Piece) (color : PieceColor) : Bool :=
  match cell with
  | some p => decide (p.type = PieceType.ROOK ∧ p.color = color)
  | none => false

/-- The castling block of `get_king_moves` (inside `if not
piece.has_moved`): kingside then queenside, for the piece's color. -/
def king_castle_moves (g : ChessGame) (piece : Piece) : List (Int × Int) :=
  if piece.color = PieceColor.WHITE then
    (if g.white_king_moved = false ∧ g.white_rook_h_moved = false ∧
        g.board 7 5 = none ∧ g.board 7 6 = none ∧
        cell_is_rook_of (g.board 7 7) PieceColor.WHITE = true then
      [((7 : Int), (6 : Int))]
    else []) ++
    (if g.white_king_moved = false ∧ g.white_rook_a_moved = false ∧
        g.board 7 1 = none ∧ g.board 7 2 = none ∧ g.board 7 3 = none ∧
        cell_is_rook_of (g.board 7 0) PieceColor.WHITE = true then
      [((7 : Int), (2 : Int))]
    else [])
  else
    (if g.black_king_moved = false ∧ g.black_rook_h_moved = false ∧
        g.board 0 5 = none ∧ g.board 0 6 = none ∧
        cell_is_rook_of (g.board 0 7) PieceColor.BLACK = true then
      [((0 : Int), (6 : Int))]
    else []) ++
    (if g.black_king_moved = false ∧ g.black_rook_a_moved = false ∧
        g.board 0 1 = none ∧ g.board 0 2 = none ∧ g.board 0 3 = none ∧
        cell_is_rook_of (g.board 0 0) PieceColor.BLACK = true then
      [((0 : Int), (2 : Int))]
    else [])

/-- `get_king_moves`: adjacent moves, then (when the piece has not moved)
the castling destinations. -/
def get_king_moves (g : ChessGame) (piece : Piece) : List (Int × Int) :=
  king_adjacent_moves g piece ++
    (if piece.has_moved = false then king_castle_moves g piece else [])

/-- `get_valid_moves_for_opponent`: the attack sets used by check
detection.  Note the pawn case uses `direction = 1 if color == WHITE else
-1`, the reverse of `get_pawn_moves`, with the source comment "Reverse
direction for checking attacks"; the king case slices `[0:8]`. -/
def get_valid_moves_for_opponent (g : ChessGame) (piece : Piece) : List (Int × Int) :=
  match piece.type with
  | PieceType.PAWN =>
    let direction : Int := if piece.color = PieceColor.WHITE then 1 else -1
    [(-1 : Int), 1].filterMap fun dc =>
      let new_row := piece.row + direction
      let new_col := piece.col + dc
      if 0 ≤ new_row ∧ new_row < 8 ∧ 0 ≤ new_col ∧ new_col < 8 then
        some (new_row, new_col)
      else none
  | PieceType.ROOK => get_rook_moves g piece
  | PieceType.KNIGHT => get_knight_moves g piece
  | PieceType.BISHOP => get_bishop_moves g piece
  | PieceType.QUEEN => get_queen_moves g piece
  | PieceType.KING => (get_king_moves g piece).take 8

/-- The king-search predicate of `is_king_in_check`. -/
def is_king_cell (b : Board) (color : PieceColor) (sq : Int × Int) : Bool :=
  match b sq.1 sq.2 with
  | some p => decide (p.type = PieceType.KING ∧ p.color = color)
  | none => false

/-- The nested search loop of `is_king_in_check`: the first square in
row-major order holding a king of the given color. -/
def find_king (g : ChessGame) (color : PieceColor) : Option (Int × Int) :=
  allSquares.find? (is_king_cell g.board color)

def opponent_of (color : PieceColor) : PieceColor :=
  if color = PieceColor.WHITE then PieceColor.BLACK else PieceColor.WHITE

/-- `is_king_in_check`: locate the king (returning `False` when absent),
then ask whether any opposing piece's attack set contains its square.
The Python code temporarily syncs `piece.row, piece.col` to the scanned
cell and restores them afterwards; here the synced piece value is passed
directly. -/
def is_king_in_check (g : ChessGame) (color : PieceColor) : Bool :=
  match find_king g color with
  | none => false
  | some king_pos =>
    allSquares.any fun sq =>
      match g.board sq.1 sq.2 with
      | some piece =>
        decide (piece.color = opponent_of color) &&
          decide (king_pos ∈
            get_valid_moves_for_opponent g {piece with row := sq.1, col := sq.2})
      | none => false

/-- `move_puts_king_in_check`: place the piece on the destination, clear
the origin, test check for the mover's color, then restore both cells and
the piece's recorded coordinates.  The returned state is the state the
caller observes after the probe.  Assignment order matches the source:
destination cell first, then origin cell, on both the apply and the
revert. -/
def move_puts_king_in_check (g : ChessGame) (piece : Piece) (dest_row dest_col : Int) :
    Bool × ChessGame :=
  let original_piece := g.board dest_row dest_col
  let original_row := piece.row
  let original_col := piece.col
  let moved := {piece with row := dest_row, col := dest_col}
  let b1 := setB (setB g.board dest_row dest_col (some moved)) original_row original_col none
  let in_check := is_king_in_check {g with board := b1} piece.color
  let b2 := setB (setB b1 original_row original_col (some piece)) dest_row dest_col original_piece
  (in_check, {g with board := b2})

/-- `get_valid_moves`: dispatch on the piece type, then keep the moves the
speculative probe reports as not leaving the own king in check. -/
def get_valid_moves (g : ChessGame) (piece : Piece) : List (Int × Int) :=
  let moves :=
    match piece.type with
    | PieceType.PAWN => get_pawn_moves g piece
    | PieceType.ROOK => get_rook_moves g piece
    | PieceType.KNIGHT => get_knight_moves g piece
    | PieceType.BISHOP => get_bishop_moves g piece
    | PieceType.QUEEN => get_queen_moves g piece
    | PieceType.KING => get_king_moves g piece
  moves.filter fun m => !(move_puts_king_in_check g piece m.1 m.2).1

/-- The castling block at the top of `make_move`: when a king moves two
columns, relocate the matching rook next to the king's destination and
mark it moved.  `none` models the `AttributeError` the Python code would
raise when the rook cell it dereferences is empty. -/
def castle_rook_step (g0 : ChessGame) (piece : Piece) (dest_row dest_col : Int) :
    Option ChessGame :=
  if piece.type = PieceType.KING ∧ (dest_col - piece.col).natAbs = 2 then
    let rook_start_col : Int := if piece.col < dest_col then 7 else 0
    let rook_dest_col : Int := if piece.col < dest_col then dest_col - 1 else dest_col + 1
    match g0.board piece.row rook_start_col with
    | some rook =>
      let rook' := {rook with col := rook_dest_col, has_moved := true}
      let b' := setB (setB g0.board piece.row rook_dest_col (some rook'))
        piece.row rook_start_col none
      some {g0 with board := b'}
    | none => none
  else some g0

/-- The en-passant capture block of `make_move`: when a pawn lands on the
en-passant target, clear the cell on the pawn's origin row in the
destination column (the passed pawn). -/
def ep_capture_step (g : ChessGame) (piece : Piece) (dest_row dest_col : Int) :
    ChessGame :=
  if piece.type = PieceType.PAWN ∧ g.en_passant_target = some (dest_row, dest_col) then
    {g with board := setB g.board piece.row dest_col none}
  else g

/-- The en-passant target update of `make_move`: a double pawn move sets
the midpoint square as the new target, any other move clears it. -/
def ep_target_step (g : ChessGame) (piece : Piece) (dest_row dest_col : Int) :
    ChessGame :=
  if piece.type = PieceType.PAWN ∧ (dest_row - piece.row).natAbs = 2 then
    {g with en_passant_target := some (Int.fdiv (dest_row + piece.row) 2, dest_col)}
  else {g with en_passant_target := none}

/-- The relocation block of `make_move`: destination cell receives the
piece (coordinates updated, `has_moved = True`), origin cell is cleared,
in that order. -/
def relocation_step (g : ChessGame) (piece : Piece) (dest_row dest_col : Int) :
    ChessGame :=
  let moved := {piece with row := dest_row, col := dest_col, has_moved := true}
  {g with board := setB (setB g.board dest_row dest_col (some moved)) piece.row piece.col none}

/-- The castling-rights block of `make_move`.  The source reads
`piece.col` after the relocation already updated it, so the rook test
sees the destination column (and never inspects the row). -/
def castling_rights_step (g : ChessGame) (piece : Piece) (dest_col : Int) : ChessGame :=
  if piece.type = PieceType.KING then
    if piece.color = PieceColor.WHITE then {g with white_king_moved := true}
    else {g with black_king_moved := true}
  else if piece.type = PieceType.ROOK then
    if piece.color = PieceColor.WHITE then
      if dest_col = 0 then {g with white_rook_a_moved := true}
      else if dest_col = 7 then {g with white_rook_h_moved := true}
      else g
    else
      if dest_col = 0 then {g with black_rook_a_moved := true}
      else if dest_col = 7 then {g with black_rook_h_moved := true}
      else g
  else g

/-- The promotion block of `make_move`: a pawn arriving on the opposite
back rank is replaced on the destination cell by a fresh queen (the
source reads `piece.row`/`piece.color` after the relocation, i.e. the
destination row). -/
def promotion_step (g : ChessGame) (piece : Piece) (dest_row dest_col : Int) : ChessGame :=
  if piece.type = PieceType.PAWN ∧
      ((piece.color = PieceColor.WHITE ∧ dest_row = 0) ∨
       (piece.color = PieceColor.BLACK ∧ dest_row = 7)) then
    let queen : Piece := ⟨PieceType.QUEEN, piece.color, dest_row, dest_col, false⟩
    {g with board := setB g.board dest_row dest_col (some queen)}
  else g

/-- The turn switch of `make_move`. -/
def turn_switch_step (g : ChessGame) : ChessGame :=
  {g with turn := if g.turn = PieceColor.WHITE then PieceColor.BLACK else PieceColor.WHITE}

/-- `make_move`.  The steps and their order follow the source: castling
rook relocation, en-passant capture, en-passant target update, capture
bookkeeping (read before the relocation), relocation, castling-rights
update, promotion, turn switch, history append.

Source slip reproduced faithfully: the history entry reads
`(piece.row, piece.col)` after the relocation already updated them, so
the recorded origin equals the destination. -/
def make_move (g0 : ChessGame) (piece : Piece) (dest_row dest_col : Int) :
    Option ChessGame :=
  (castle_rook_step g0 piece dest_row dest_col).map fun g1 =>
    let g2 := ep_capture_step g1 piece dest_row dest_col
    let g3 := ep_target_step g2 piece dest_row dest_col
    let captured_piece := g3.board dest_row dest_col
    let moved := {piece with row := dest_row, col := dest_col, has_moved := true}
    let g4 := relocation_step g3 piece dest_row dest_col
    let g5 := castling_rights_step g4 piece dest_col
    let g6 := promotion_step g5 piece dest_row dest_col
    let g7 := turn_switch_step g6
    let entry : HistEntry := { piece := moved, fromSq := (moved.row, moved.col),
                               toSq := (dest_row, dest_col), captured := captured_piece }
    {g7 with move_history := g7.move_history ++ [entry]}

/-- A board is coherent when every occupied in-range cell holds a piece
whose recorded coordinates are that cell's coordinates. -/
def coherentB (b : Board) : Bool :=
  allSquares.all fun sq =>
    match b sq.1 sq.2 with
    | some p => decide (p.row = sq.1 ∧ p.col = sq.2)
    | none => true

/-! ### Concrete states used by the claim theorems and witnesses -/

/-- A template game state: empty board, black to move, all castling flags
`False`, no en-passant target, empty history. -/
def base_game : ChessGame where
  board := fun _ _ => none
  turn := PieceColor.BLACK
  white_king_moved := false
  black_king_moved := false
  white_rook_a_moved := false
  white_rook_h_moved := false
  black_rook_a_moved := false
  black_rook_h_moved := false
  en_passant_target := none
  move_history := []

/-- The white pawn that has just double-advanced from (6,4) to (4,4). -/
def wpC1 : Piece := ⟨PieceType.PAWN, PieceColor.WHITE, 4, 4, true⟩

/-- The black pawn laterally adjacent to it, on (4,3). -/
def bpC1 : Piece := ⟨PieceType.PAWN, PieceColor.BLACK, 4, 3, false⟩

/-- The position right after the white double advance (6,4) → (4,4):
`make_move` has set `en_passant_target` to the midpoint (5,4) and black is
to move, with a black pawn adjacent on (4,3). -/
def gC1 : ChessGame := { base_game with
  board := fun r c =>
    if r = 4 ∧ c = 4 then some wpC1
    else if r = 4 ∧ c = 3 then some bpC1
    else none
  en_passant_target := some (5, 4) }

/-- A lone white pawn on (4,4). -/
def wpC2 : Piece := ⟨PieceType.PAWN, PieceColor.WHITE, 4, 4, true⟩

/-- A black king on (3,3), diagonally forward of the white pawn on (4,4):
in chess this king is attacked by the pawn. -/
def bkC2 : Piece := ⟨PieceType.KING, PieceColor.BLACK, 3, 3, false⟩

def gC2 : ChessGame := { base_game with
  board := fun r c =>
    if r = 4 ∧ c = 4 then some wpC2
    else if r = 3 ∧ c = 3 then some bkC2
    else none }

/-- A black king on (5,5), diagonally *behind* the white pawn on (4,4):
in chess this king is not attacked by the pawn. -/
def bkC2' : Piece := ⟨PieceType.KING, PieceColor.BLACK, 5, 5, false⟩

def gC2' : ChessGame := { base_game with
  board := fun r c =>
    if r = 4 ∧ c = 4 then some wpC2
    else if r = 5 ∧ c = 5 then some bkC2'
    else none }

/-- A white rook standing on its kingside home corner (7,7), unmoved. -/
def rkC3 : Piece := ⟨PieceType.ROOK, PieceColor.WHITE, 7, 7, false⟩

def gC3 : ChessGame := { base_game with
  board := fun r c => if r = 7 ∧ c = 7 then some rkC3 else none
  turn := PieceColor.WHITE }

/-- The white e-pawn of the initial position, on (6,4). -/
def wpC4 : Piece := ⟨PieceType.PAWN, PieceColor.WHITE, 6, 4, false⟩

/-- A black king on its home square (0,4), unmoved, with both black rooks
on their home corners and the back rank otherwise empty: only five of the
eight adjacent squares are on the board, so the `[0:8]` slice reaches the
castling destinations. -/
def bkC5 : Piece := ⟨PieceType.KING, PieceColor.BLACK, 0, 4, false⟩

def gC5 : ChessGame := { base_game with
  board := fun r c =>
    if r = 0 ∧ c = 4 then some bkC5
    else if r = 0 ∧ c = 0 then some ⟨PieceType.ROOK, PieceColor.BLACK, 0, 0, false⟩
    else if r = 0 ∧ c = 7 then some ⟨PieceType.ROOK, PieceColor.BLACK, 0, 7, false⟩
    else none }

/-- A lone white pawn on its starting square (6,0). -/
def wpC8 : Piece := ⟨PieceType.PAWN, PieceColor.WHITE, 6, 0, false⟩

def gC8 : ChessGame := { base_game with
  board := fun r c => if r = 6 ∧ c = 0 then some wpC8 else none
  turn := PieceColor.WHITE }

/-- A white pawn one step from promotion, on (1,0). -/
def wpC9 : Piece := ⟨PieceType.PAWN, PieceColor.WHITE, 1, 0, true⟩

def gC9 : ChessGame := { base_game with
  board := fun r c => if r = 1 ∧ c = 0 then some wpC9 else none
  turn := PieceColor.WHITE }

/-- A lone white knight on (4,4). -/
def knW : Piece := ⟨PieceType.KNIGHT, PieceColor.WHITE, 4, 4, true⟩

def gW10 : ChessGame := { base_game with
  board := fun r c => if r = 4 ∧ c = 4 then some knW else none
  turn := PieceColor.WHITE }

/-- An empty board with no king of either side. -/
def gEmpty : ChessGame := base_game

/-! ### Helper lemmas -/

/-- The two guards of the en-passant branch of `get_pawn_moves` are
contradictory: `piece.row == ep_row` together with
`piece.row + direction == ep_row - direction` forces `2 * direction = 0`,
impossible for `direction = ±1`.  Hence the branch never contributes a
move. -/
theorem pawn_ep_moves_eq_nil (g : ChessGame) (piece : Piece) :
    pawn_ep_moves g piece = [] := by
  unfold pawn_ep_moves
  cases hep : g.en_passant_target with
  | none => rfl
  | some ep =>
    simp only []
    split_ifs with h1 h2
    · exfalso
      obtain ⟨hrow, -⟩ := h1
      unfold pawn_direction at h2
      by_cases hc : piece.color = PieceColor.WHITE <;> simp [hc] at h2 <;> omega
    · rfl
    · rfl

/-- Unpacking `coherentB`: an occupied in-range cell holds a piece whose
recorded coordinates are the cell's. -/
theorem coherentB_cell {b : Board} (hcoh : coherentB b = true) {sq : Int × Int}
    (hsq : sq ∈ allSquares) {p : Piece} (hp : b sq.1 sq.2 = some p) :
    p.row = sq.1 ∧ p.col = sq.2 := by
  have h := List.all_eq_true.mp hcoh sq hsq
  rw [hp] at h
  exact of_decide_eq_true h

/-- Every square produced by a sliding ray is on the board and is not
occupied by a piece of the slider's color. -/
theorem ray_steps_mem (g : ChessGame) (piece : Piece) (d : Int × Int) :
    ∀ (fuel : Nat) (i : Int), ∀ m ∈ ray_steps g piece d fuel i,
      (0 ≤ m.1 ∧ m.1 < 8 ∧ 0 ≤ m.2 ∧ m.2 < 8) ∧
      ∀ q, g.board m.1 m.2 = some q → q.color ≠ piece.color := by
  intro fuel
  induction fuel with
  | zero => intro i m hm; simp [ray_steps] at hm
  | succ n ih =>
    intro i m hm
    rw [ray_steps] at hm
    split at hm
    · split at hm
      · rcases List.mem_cons.mp hm with hme | hmt
        · subst hme
          refine ⟨by assumption, fun q hq => ?_⟩
          rw [‹g.board _ _ = none›] at hq
          cases hq
        · exact ih _ m hmt
      · split at hm
        · rw [List.mem_singleton] at hm
          subst hm
          rename_i target heq hcol
          refine ⟨by assumption, fun q hq => ?_⟩
          rw [heq] at hq
          injection hq with hq2
          subst hq2
          exact hcol
        · simp at hm
    · simp at hm

/-- Rook destinations are on the board and never on a friendly piece. -/
theorem get_rook_moves_mem (g : ChessGame) (piece : Piece) :
    ∀ m ∈ get_rook_moves g piece,
      (0 ≤ m.1 ∧ m.1 < 8 ∧ 0 ≤ m.2 ∧ m.2 < 8) ∧
      ∀ q, g.board m.1 m.2 = some q → q.color ≠ piece.color := by
  intro m hm
  unfold get_rook_moves at hm
  obtain ⟨d, -, hray⟩ := List.mem_flatMap.mp hm
  exact ray_steps_mem g piece d 7 1 m hray

/-- Bishop destinations are on the board and never on a friendly piece. -/
theorem get_bishop_moves_mem (g : ChessGame) (piece : Piece) :
    ∀ m ∈ get_bishop_moves g piece,
      (0 ≤ m.1 ∧ m.1 < 8 ∧ 0 ≤ m.2 ∧ m.2 < 8) ∧
      ∀ q, g.board m.1 m.2 = some q → q.color ≠ piece.color := by
  intro m hm
  unfold get_bishop_moves at hm
  obtain ⟨d, -, hray⟩ := List.mem_flatMap.mp hm
  exact ray_steps_mem g piece d 7 1 m hray

/-- Queen destinations are on the board and never on a friendly piece. -/
theorem get_queen_moves_mem (g : ChessGame) (piece : Piece) :
    ∀ m ∈ get_queen_moves g piece,
      (0 ≤ m.1 ∧ m.1 < 8 ∧ 0 ≤ m.2 ∧ m.2 < 8) ∧
      ∀ q, g.board m.1 m.2 = some q → q.color ≠ piece.color := by
  intro m hm
  unfold get_queen_moves at hm
  rcases List.mem_append.mp hm with h | h
  · exact get_rook_moves_mem g piece m h
  · exact get_bishop_moves_mem g piece m h

/-- Knight destinations are on the board and never on a friendly piece. -/
theorem get_knight_moves_mem (g : ChessGame) (piece : Piece) :
    ∀ m ∈ get_knight_moves g piece,
      (0 ≤ m.1 ∧ m.1 < 8 ∧ 0 ≤ m.2 ∧ m.2 < 8) ∧
      ∀ q, g.board m.1 m.2 = some q → q.color ≠ piece.color := by
  intro m hm
  unfold get_knight_moves at hm
  obtain ⟨d, -, hf⟩ := List.mem_filterMap.mp hm
  dsimp only at hf
  split at hf
  · split at hf
    · rename_i heq
      injection hf with hf2
      subst hf2
      refine ⟨by assumption, fun q hq => ?_⟩
      rw [heq] at hq
      cases hq
    · split at hf
      · rename_i target heq hcol
        injection hf with hf2
        subst hf2
        refine ⟨by assumption, fun q hq => ?_⟩
        rw [heq] at hq
        injection hq with hq2
        subst hq2
        exact hcol
      · cases hf
  · cases hf

/-- Adjacent king destinations are on the board and never on a friendly
piece. -/
theorem king_adjacent_moves_mem (g : ChessGame) (piece : Piece) :
    ∀ m ∈ king_adjacent_moves g piece,
      (0 ≤ m.1 ∧ m.1 < 8 ∧ 0 ≤ m.2 ∧ m.2 < 8) ∧
      ∀ q, g.board m.1 m.2 = some q → q.color ≠ piece.color := by
  intro m hm
  unfold king_adjacent_moves at hm
  obtain ⟨d, -, hf⟩ := List.mem_filterMap.mp hm
  dsimp only at hf
  split at hf
  · split at hf
    · rename_i heq
      injection hf with hf2
      subst hf2
      refine ⟨by assumption, fun q hq => ?_⟩
      rw [heq] at hq
      cases hq
    · split at hf
      · rename_i target heq hcol
        injection hf with hf2
        subst hf2
        refine ⟨by assumption, fun q hq => ?_⟩
        rw [heq] at hq
        injection hq with hq2
        subst hq2
        exact hcol
      · cases hf
  · cases hf

/-- Castling destinations are on the board and, because each guard
requires the destination cell to be empty, never on a friendly piece. -/
theorem king_castle_moves_mem (g : ChessGame) (piece : Piece) :
    ∀ m ∈ king_castle_moves g piece,
      (0 ≤ m.1 ∧ m.1 < 8 ∧ 0 ≤ m.2 ∧ m.2 < 8) ∧
      ∀ q, g.board m.1 m.2 = some q → q.color ≠ piece.color := by
  intro m hm
  unfold king_castle_moves at hm
  split at hm
  · rcases List.mem_append.mp hm with h | h
    · split at h
      · rename_i hguard
        rw [List.mem_singleton] at h
        subst h
        refine ⟨by norm_num, fun q hq => ?_⟩
        dsimp only at hq
        rw [hguard.2.2.2.1] at hq
        cases hq
      · cases h
    · split at h
      · rename_i hguard
        rw [List.mem_singleton] at h
        subst h
        refine ⟨by norm_num, fun q hq => ?_⟩
        dsimp only at hq
        rw [hguard.2.2.2.1] at hq
        cases hq
      · cases h
  · rcases List.mem_append.mp hm with h | h
    · split at h
      · rename_i hguard
        rw [List.mem_singleton] at h
        subst h
        refine ⟨by norm_num, fun q hq => ?_⟩
        dsimp only at hq
        rw [hguard.2.2.2.1] at hq
        cases hq
      · cases h
    · split at h
      · rename_i hguard
        rw [List.mem_singleton] at h
        subst h
        refine ⟨by norm_num, fun q hq => ?_⟩
        dsimp only at hq
        rw [hguard.2.2.2.1] at hq
        cases hq
      · cases h

/-- All king destinations are on the board and never on a friendly piece. -/
theorem get_king_moves_mem (g : ChessGame) (piece : Piece) :
    ∀ m ∈ get_king_moves g piece,
      (0 ≤ m.1 ∧ m.1 < 8 ∧ 0 ≤ m.2 ∧ m.2 < 8) ∧
      ∀ q, g.board m.1 m.2 = some q → q.color ≠ piece.color := by
  intro m hm
  unfold get_king_moves at hm
  rcases List.mem_append.mp hm with h | h
  · exact king_adjacent_moves_mem g piece m h
  · split at h
    · exact king_castle_moves_mem g piece m h
    · cases h

/-- Pawn destinations are on the board and never on a friendly piece (the
pawn itself must stand on a column of the board). -/
theorem get_pawn_moves_mem (g : ChessGame) (piece : Piece)
    (hc0 : 0 ≤ piece.col) (hc8 : piece.col < 8) :
    ∀ m ∈ get_pawn_moves g piece,
      (0 ≤ m.1 ∧ m.1 < 8 ∧ 0 ≤ m.2 ∧ m.2 < 8) ∧
      ∀ q, g.board m.1 m.2 = some q → q.color ≠ piece.color := by
  intro m hm
  unfold get_pawn_moves at hm
  rw [pawn_ep_moves_eq_nil, List.append_nil] at hm
  rcases List.mem_append.mp hm with h | h
  · unfold pawn_forward_moves at h
    dsimp only at h
    split at h
    · rename_i hcond
      rcases List.mem_cons.mp h with hme | hrest
      · subst hme
        refine ⟨⟨hcond.1, hcond.2.1, hc0, hc8⟩, fun q hq => ?_⟩
        dsimp only at hq
        rw [hcond.2.2] at hq
        cases hq
      · split at hrest
        · rename_i hstart
          split at hrest
          · rename_i hempty
            rw [List.mem_singleton] at hrest
            subst hrest
            refine ⟨?_, fun q hq => ?_⟩
            · dsimp only
              unfold pawn_direction
              rcases hstart with ⟨hw, hr⟩ | ⟨hb, hr⟩
              · rw [hr, if_pos hw]
                omega
              · rw [hr, if_neg (by simp [hb])]
                omega
            · dsimp only at hq
              rw [hempty] at hq
              cases hq
          · cases hrest
        · cases hrest
    · cases h
  · unfold pawn_capture_moves at h
    obtain ⟨col, -, hf⟩ := List.mem_filterMap.mp h
    dsimp only at hf
    split at hf
    · rename_i hcol
      split at hf
      · rename_i hrow
        split at hf
        · rename_i target heq
          split at hf
          · rename_i hne
            injection hf with hf2
            subst hf2
            refine ⟨⟨hrow.1, hrow.2, hcol.1, hcol.2⟩, fun q hq => ?_⟩
            dsimp only at hq
            rw [heq] at hq
            injection hq with hq2
            subst hq2
            exact hne
          · cases hf
        · cases hf
      · cases hf
    · cases hf

/-! ### Step lemmas about make_move -/

theorem castle_rook_step_eq_some {g0 g1 : ChessGame} {piece : Piece} {dr dc : Int}
    (h : castle_rook_step g0 piece dr dc = some g1) :
    g1.move_history = g0.move_history ∧ g1.turn = g0.turn := by
  unfold castle_rook_step at h
  split at h
  · dsimp only at h
    split at h
    · injection h with h2
      subst h2
      exact ⟨rfl, rfl⟩
    · cases h
  · injection h with h2
    subst h2
    exact ⟨rfl, rfl⟩

theorem castle_rook_step_of_not_king (g0 : ChessGame) (piece : Piece) (dr dc : Int)
    (h : piece.type ≠ PieceType.KING) :
    castle_rook_step g0 piece dr dc = some g0 := by
  unfold castle_rook_step
  rw [if_neg (fun hc => h hc.1)]

theorem ep_capture_step_history (g : ChessGame) (piece : Piece) (dr dc : Int) :
    (ep_capture_step g piece dr dc).move_history = g.move_history := by
  unfold ep_capture_step; split_ifs <;> rfl

theorem ep_capture_step_turn (g : ChessGame) (piece : Piece) (dr dc : Int) :
    (ep_capture_step g piece dr dc).turn = g.turn := by
  unfold ep_capture_step; split_ifs <;> rfl

theorem ep_capture_step_board (g : ChessGame) (piece : Piece) (dr dc : Int) :
    (ep_capture_step g piece dr dc).board =
      if piece.type = PieceType.PAWN ∧ g.en_passant_target = some (dr, dc) then
        setB g.board piece.row dc none
      else g.board := by
  unfold ep_capture_step; split_ifs <;> rfl

theorem ep_target_step_history (g : ChessGame) (piece : Piece) (dr dc : Int) :
    (ep_target_step g piece dr dc).move_history = g.move_history := by
  unfold ep_target_step; split_ifs <;> rfl

theorem ep_target_step_turn (g : ChessGame) (piece : Piece) (dr dc : Int) :
    (ep_target_step g piece dr dc).turn = g.turn := by
  unfold ep_target_step; split_ifs <;> rfl

theorem ep_target_step_board (g : ChessGame) (piece : Piece) (dr dc : Int) :
    (ep_target_step g piece dr dc).board = g.board := by
  unfold ep_target_step; split_ifs <;> rfl

theorem relocation_step_history (g : ChessGame) (piece : Piece) (dr dc : Int) :
    (relocation_step g piece dr dc).move_history = g.move_history := rfl

theorem relocation_step_turn (g : ChessGame) (piece : Piece) (dr dc : Int) :
    (relocation_step g piece dr dc).turn = g.turn := rfl

theorem relocation_step_board (g : ChessGame) (piece : Piece) (dr dc : Int) :
    (relocation_step g piece dr dc).board =
      setB (setB g.board dr dc (some {piece with row := dr, col := dc, has_moved := true}))
        piece.row piece.col none := rfl

theorem castling_rights_step_history (g : ChessGame) (piece : Piece) (dc : Int) :
    (castling_rights_step g piece dc).move_history = g.move_history := by
  unfold castling_rights_step; split_ifs <;> rfl

theorem castling_rights_step_turn (g : ChessGame) (piece : Piece) (dc : Int) :
    (castling_rights_step g piece dc).turn = g.turn := by
  unfold castling_rights_step; split_ifs <;> rfl

theorem castling_rights_step_board (g : ChessGame) (piece : Piece) (dc : Int) :
    (castling_rights_step g piece dc).board = g.board := by
  unfold castling_rights_step; split_ifs <;> rfl

theorem promotion_step_history (g : ChessGame) (piece : Piece) (dr dc : Int) :
    (promotion_step g piece dr dc).move_history = g.move_history := by
  unfold promotion_step; split_ifs <;> rfl

theorem promotion_step_turn (g : ChessGame) (piece : Piece) (dr dc : Int) :
    (promotion_step g piece dr dc).turn = g.turn := by
  unfold promotion_step; split_ifs <;> rfl

theorem promotion_step_board_of_promo (g : ChessGame) (piece : Piece) (dr dc : Int)
    (h : piece.type = PieceType.PAWN ∧
      ((piece.color = PieceColor.WHITE ∧ dr = 0) ∨
       (piece.color = PieceColor.BLACK ∧ dr = 7))) :
    (promotion_step g piece dr dc).board =
      setB g.board dr dc (some ⟨PieceType.QUEEN, piece.color, dr, dc, false⟩) := by
  unfold promotion_step; rw [if_pos h]

theorem turn_switch_step_history (g : ChessGame) :
    (turn_switch_step g).move_history = g.move_history := rfl

theorem turn_switch_step_board (g : ChessGame) :
    (turn_switch_step g).board = g.board := rfl

theorem turn_switch_step_turn (g : ChessGame) :
    (turn_switch_step g).turn =
      (if g.turn = PieceColor.WHITE then PieceColor.BLACK else PieceColor.WHITE) := rfl

/-! ### Claim theorems -/

/-- C1: refuted — the en-passant capture is never offered.  In `gC1`,
the position right after a white double advance (6,4) → (4,4) with
`en_passant_target = (5,4)`, the adjacent black pawn on (4,3) gets only
the forward move (5,3); the diagonal capture onto the empty midpoint
(5,4) is absent.  In fact the two guards of the en-passant branch are
contradictory, so `get_pawn_moves` is independent of the en-passant
target in every position. -/
theorem en_passant_capture_never_generated :
    get_pawn_moves gC1 bpC1 = [(5, 3)] ∧
    (5, 4) ∉ get_valid_moves gC1 bpC1 ∧
    ∀ (g : ChessGame) (piece : Piece),
      get_pawn_moves g piece = get_pawn_moves {g with en_passant_target := none} piece := by
  refine ⟨by decide, by decide, fun g piece => ?_⟩
  unfold get_pawn_moves
  simp only [pawn_ep_moves_eq_nil, List.append_nil]
  rfl

/-- C2: refuted — the check detector's pawn attack set points backward.
The white pawn on (4,4) is reported to attack (5,3) and (5,5) (the
row+1 diagonals) instead of the row-1 diagonals, so the black king on
(3,3), diagonally forward of the pawn, is not seen as in check, while a
black king on (5,5), diagonally behind the pawn, is. -/
theorem pawn_attack_direction_reversed :
    get_valid_moves_for_opponent gC2 wpC2 = [(5, 3), (5, 5)] ∧
    is_king_in_check gC2 PieceColor.BLACK = false ∧
    is_king_in_check gC2' PieceColor.BLACK = true := by decide

/-- C3: refuted — moving a rook off its home corner keeps the castling
right.  The unmoved white rook on (7,7) legally moves to (7,5), and
because `make_move` tests `piece.col` after the relocation (the
destination column 5, neither 0 nor 7), `white_rook_h_moved` stays
`False`; the right the claim says is cleared is retained. -/
theorem rook_move_keeps_castling_right :
    (7, 5) ∈ get_valid_moves gC3 rkC3 ∧
    (make_move gC3 rkC3 7 5).map
      (fun g' => (g'.white_rook_h_moved, g'.white_rook_a_moved)) =
        some (false, false) := by decide

/-- C4: refuted — the history entry records the destination as the
origin.  Applying the opening double advance (6,4) → (4,4) on the
initial position appends the entry with `fromSq = (4,4) = toSq`, because
the source reads `(piece.row, piece.col)` after the relocation updated
them; the recorded origin never equals the true origin (6,4), so replay
from history cannot reproduce the game. -/
theorem history_records_destination_as_origin :
    create_initial_board 6 4 = some wpC4 ∧
    (make_move initial_game wpC4 4 4).map
      (fun g' => g'.move_history.map fun e => (e.fromSq, e.toSq)) =
        some [((4, 4), (4, 4))] := by decide

/-- C5 counterexample: the attack set used by check detection can contain
a castling destination.  The unmoved black king on its home square (0,4)
has only five on-board adjacent moves, so the `[0:8]` slice of its move
list reaches the kingside castling destination (0,6) — a square two
columns from the king. -/
theorem king_attack_set_contains_castle_square :
    (0, 6) ∈ get_valid_moves_for_opponent gC5 bkC5 ∧
    bkC5.type = PieceType.KING ∧ bkC5.row = 0 ∧ bkC5.col = 4 := by decide

/-- C5 (amended): the king's attack set is the first eight entries of its
move list: it has at most eight entries and always contains every
adjacent-square move (of which there are at most eight), but when fewer
than eight adjacent moves exist a castling destination can be included. -/
theorem king_attack_set_take_eight (g : ChessGame) (piece : Piece)
    (htype : piece.type = PieceType.KING) :
    (get_valid_moves_for_opponent g piece).length ≤ 8 ∧
    ∀ m ∈ king_adjacent_moves g piece, m ∈ get_valid_moves_for_opponent g piece := by
  have hatt : get_valid_moves_for_opponent g piece = (get_king_moves g piece).take 8 := by
    unfold get_valid_moves_for_opponent
    rw [htype]
  rw [hatt]
  have hlen : (king_adjacent_moves g piece).length ≤ 8 := by
    unfold king_adjacent_moves
    calc (king_offsets.filterMap _).length ≤ king_offsets.length :=
          List.length_filterMap_le _ _
      _ = 8 := rfl
  constructor
  · exact List.length_take_le _ _
  · intro m hmem
    unfold get_king_moves
    rw [List.take_append_eq_append_take, List.take_of_length_le hlen]
    exact List.mem_append_left _ hmem

/-- Witness for C5 (amended) at the home-square king of `gC5`. -/
theorem king_attack_set_take_eight_witness :
    (get_valid_moves_for_opponent gC5 bkC5).length ≤ 8 ∧
    ∀ m ∈ king_adjacent_moves gC5 bkC5, m ∈ get_valid_moves_for_opponent gC5 bkC5 :=
  king_attack_set_take_eight gC5 bkC5 rfl

/-- C6: confirmed — on a board holding no king of the queried color,
`is_king_in_check` returns `False` (the king search comes back empty and
the function exits before scanning attackers; being a total function, it
raises nothing). -/
theorem no_king_no_check (g : ChessGame) (color : PieceColor)
    (h : allSquares.all (fun sq => !is_king_cell g.board color sq) = true) :
    is_king_in_check g color = false := by
  unfold is_king_in_check
  have hfk : find_king g color = none := by
    unfold find_king
    rw [List.find?_eq_none]
    intro sq hsq
    have h2 := List.all_eq_true.mp h sq hsq
    simp only [Bool.not_eq_true'] at h2
    simp [h2]
  rw [hfk]

/-- Witness for C6 at the empty board. -/
theorem no_king_no_check_witness : is_king_in_check gEmpty PieceColor.WHITE = false :=
  no_king_no_check gEmpty PieceColor.WHITE (by decide)

/-- C7: confirmed — the speculative probe `move_puts_king_in_check`
returns a state equal to its input whenever the probed piece actually
occupies its recorded square: both touched cells are restored, so the
board mapping and every piece's recorded coordinates (stored in the
cells) are unchanged from the caller's perspective. -/
theorem move_probe_restores_state (g : ChessGame) (piece : Piece) (dest_row dest_col : Int)
    (h : g.board piece.row piece.col = some piece) :
    (move_puts_king_in_check g piece dest_row dest_col).2 = g := by
  obtain ⟨b, t, f1, f2, f3, f4, f5, f6, ept, hist⟩ := g
  unfold move_puts_king_in_check
  dsimp only at h ⊢
  congr 1
  funext r c
  unfold setB
  split_ifs with h1 h2
  · obtain ⟨rfl, rfl⟩ := h1
    rfl
  · obtain ⟨rfl, rfl⟩ := h2
    exact h.symm
  · rfl

/-- Witness for C7: probing the lone white knight of `gW10` to (2,3)
returns the unchanged state. -/
theorem move_probe_restores_state_witness :
    (move_puts_king_in_check gW10 knW 2 3).2 = gW10 :=
  move_probe_restores_state gW10 knW 2 3 (by decide)

/-- C8 counterexample: `make_move` applies an illegal move silently.  The
destination (3,0) is not in the legal-move set of the white pawn on
(6,0), yet `make_move` reports no error and changes the board, placing
the pawn on (3,0); the state is neither left unchanged nor is any
`IllegalMove` error value produced anywhere in the code. -/
theorem make_move_applies_illegal_move :
    (3, 0) ∉ get_valid_moves gC8 wpC8 ∧
    gC8.board 3 0 = none ∧
    (make_move gC8 wpC8 3 0).map (fun g' => g'.board 3 0) =
      some (some ⟨PieceType.PAWN, PieceColor.WHITE, 3, 0, true⟩) := by decide

/-- C8 (amended): `make_move` performs no legality validation and has no
error channel: whenever it returns at all (every case except the castling
branch dereferencing an empty rook cell, which raises), it applies the
requested move unconditionally, appending exactly one history entry and
flipping the turn; rejection of illegal destinations happens only in the
caller by a silent membership test. -/
theorem make_move_always_applies (g : ChessGame) (piece : Piece) (dest_row dest_col : Int) :
    (make_move g piece dest_row dest_col).elim True (fun g' =>
      g'.move_history.length = g.move_history.length + 1 ∧
      g'.turn = (if g.turn = PieceColor.WHITE then PieceColor.BLACK else PieceColor.WHITE)) := by
  unfold make_move
  cases hstep : castle_rook_step g piece dest_row dest_col with
  | none => exact trivial
  | some g1 =>
    obtain ⟨hh, ht⟩ := castle_rook_step_eq_some hstep
    dsimp only [Option.map_some', Option.elim]
    constructor
    · rw [List.length_append, turn_switch_step_history, promotion_step_history,
        castling_rights_step_history, relocation_step_history, ep_target_step_history,
        ep_capture_step_history, hh]
      rfl
    · rw [turn_switch_step_turn, promotion_step_turn, castling_rights_step_turn,
        relocation_step_turn, ep_target_step_turn, ep_capture_step_turn, ht]

/-- C9: confirmed — a pawn move onto the opposite back rank leaves a
fresh queen of the same color on the destination cell, and (on a coherent
board) no cell of the board holds the moved pawn afterwards. -/
theorem pawn_promotion_to_queen (g : ChessGame) (piece : Piece) (dest_row dest_col : Int)
    (htype : piece.type = PieceType.PAWN)
    (hrank : (piece.color = PieceColor.WHITE ∧ dest_row = 0) ∨
             (piece.color = PieceColor.BLACK ∧ dest_row = 7))
    (hcoh : coherentB g.board = true) :
    (make_move g piece dest_row dest_col).isSome = true ∧
    (make_move g piece dest_row dest_col).elim True (fun g' =>
      g'.board dest_row dest_col =
        some ⟨PieceType.QUEEN, piece.color, dest_row, dest_col, false⟩ ∧
      ∀ sq ∈ allSquares, g'.board sq.1 sq.2 ≠
        some {piece with row := dest_row, col := dest_col, has_moved := true}) := by
  have hstep : castle_rook_step g piece dest_row dest_col = some g :=
    castle_rook_step_of_not_king g piece dest_row dest_col (by rw [htype]; intro hc; cases hc)
  unfold make_move
  rw [hstep]
  dsimp only [Option.map_some', Option.isSome_some, Option.elim]
  refine ⟨rfl, ?_, ?_⟩
  · rw [turn_switch_step_board, promotion_step_board_of_promo _ _ _ _ ⟨htype, hrank⟩]
    unfold setB
    rw [if_pos ⟨rfl, rfl⟩]
  · intro sq hsq
    rw [turn_switch_step_board, promotion_step_board_of_promo _ _ _ _ ⟨htype, hrank⟩,
      castling_rights_step_board, relocation_step_board, ep_target_step_board,
      ep_capture_step_board]
    intro heq
    unfold setB at heq
    split_ifs at heq with h1 h2 h3
    · rw [htype] at heq
      simp at heq
    all_goals
      (try dsimp only at heq)
      first
      | (by_cases h4 : sq.1 = piece.row ∧ sq.2 = dest_col
         · rw [if_pos h4] at heq
           exact Option.noConfusion heq
         · rw [if_neg h4] at heq
           have hco := coherentB_cell hcoh hsq heq
           dsimp only at hco
           exact h1 ⟨hco.1.symm, hco.2.symm⟩)
      | (have hco := coherentB_cell hcoh hsq heq
         dsimp only at hco
         exact h1 ⟨hco.1.symm, hco.2.symm⟩)

/-- Witness for C9: the white pawn of `gC9` promotes on (0,0). -/
theorem pawn_promotion_to_queen_witness :
    (make_move gC9 wpC9 0 0).isSome = true ∧
    (make_move gC9 wpC9 0 0).elim True (fun g' =>
      g'.board 0 0 = some ⟨PieceType.QUEEN, wpC9.color, 0, 0, false⟩ ∧
      ∀ sq ∈ allSquares, g'.board sq.1 sq.2 ≠
        some {wpC9 with row := 0, col := 0, has_moved := true}) :=
  pawn_promotion_to_queen gC9 wpC9 0 0 rfl (Or.inl ⟨rfl, rfl⟩) (by decide)

/-- C10: confirmed — on a coherent board, every destination produced by
`get_valid_moves` for a piece standing on its recorded in-range square is
itself on the board and is not occupied by a piece of the mover's own
color. -/
theorem valid_moves_in_bounds_not_own (g : ChessGame) (piece : Piece)
    (hcoh : coherentB g.board = true)
    (hr0 : 0 ≤ piece.row) (hr8 : piece.row < 8)
    (hc0 : 0 ≤ piece.col) (hc8 : piece.col < 8)
    (hcell : g.board piece.row piece.col = some piece) :
    ∀ m ∈ get_valid_moves g piece,
      (0 ≤ m.1 ∧ m.1 < 8 ∧ 0 ≤ m.2 ∧ m.2 < 8) ∧
      ∀ q, g.board m.1 m.2 = some q → q.color ≠ piece.color := by
  intro m hm
  unfold get_valid_moves at hm
  dsimp only at hm
  have hm' := (List.mem_filter.mp hm).1
  cases htype : piece.type <;> rw [htype] at hm'
  · exact get_pawn_moves_mem g piece hc0 hc8 m hm'
  · exact get_rook_moves_mem g piece m hm'
  · exact get_knight_moves_mem g piece m hm'
  · exact get_bishop_moves_mem g piece m hm'
  · exact get_queen_moves_mem g piece m hm'
  · exact get_king_moves_mem g piece m hm'

/-- Witness for C10: the lone white knight of `gW10` and its destination
(2,3). -/
theorem valid_moves_in_bounds_not_own_witness :
    ((0 : Int) ≤ 2 ∧ (2 : Int) < 8 ∧ (0 : Int) ≤ 3 ∧ (3 : Int) < 8) ∧
    ∀ q, gW10.board 2 3 = some q → q.color ≠ knW.color :=
  valid_moves_in_bounds_not_own gW10 knW (by decide) (by decide) (by decide)
    (by decide) (by decide) (by decide) (2, 3) (by decide)
